import Mathlib

/-!
# Verification of the Memorizer versioned memory store

Shallow embedding of the core of the `memorizer-ts` repository:
the `StorageService` CRUD orchestration (memories, version snapshots,
audit events, relationships), the line-based diff engine (`DiffService`),
and the similarity-retrieval / threshold-fallback policy of the tool layer.

The persistence substrate (LanceDB) is modelled as four in-memory lists;
`table.add` is list append, `table.delete(pred)` is list filtering and
`search().where(id = x).limit(1)` is `List.find?`.  Nearest-neighbour
responses, fresh UUIDs and clock readings are nondeterministic inputs of
the real code and are passed in as explicit parameters.  JavaScript
numbers are modelled as rationals, `undefined` as `Option.none`, and the
JS truthiness of `x || d` (where `0`, `""`, `null` are falsy) is spelled
out at each use site.
-/

set_option maxRecDepth 4000

/-- Opaque structured payload (`Record<string, unknown>` in the source);
modelled as a serializable key-value map whose internal shape is irrelevant. -/
abbrev Payload := List (String × String)

/-- `MemoryEventType` enum from `packages/shared/src/types/version.ts`. -/
inductive MemoryEventType
  | created
  | contentUpdated
  | tagsUpdated
  | titleUpdated
  | typeUpdated
  | reverted
  | relationshipAdded
  | relationshipRemoved
deriving DecidableEq, Repr

/-- The structured `event_data` payloads actually constructed by the source
(`storeMemory`, `updateMemory`, `revertToVersion`, `createRelationship`). -/
inductive EventData
  | createdData (initial_type : String) (initial_tags : List String)
  | contentUpdatedData (previous_version : Nat)
  | tagsUpdatedData (old_tags new_tags : List String)
  | titleUpdatedData (old_title new_title : Option String)
  | revertedData (reverted_to_version : Nat) (previous_version : Nat)
  | relationshipAddedData (relationship_id to_memory_id : String) (rel_type : String)
deriving DecidableEq, Repr

/-- The `Memory` record (`packages/shared/src/types/memory.ts`), merged with
the stored row shape: embedding vectors are `none` when absent from the
in-memory object and `some` when stored.  Timestamps are abstract `Nat`s. -/
structure Memory where
  id : String
  type : String
  content : Payload
  text : String
  source : String
  tags : List String
  confidence : ℚ
  title : Option String
  current_version : Nat
  created_at : Nat
  updated_at : Nat
  relationship_count : Nat
  embedding : Option (List ℚ)
  embedding_metadata : Option (List ℚ)
deriving DecidableEq, Repr

/-- `MemoryVersion` snapshot record (`packages/shared/src/types/version.ts`).
Snapshots never store embedding vectors. -/
structure MemoryVersion where
  version_id : String
  memory_id : String
  version_number : Nat
  type : String
  content : Payload
  text : String
  source : String
  tags : List String
  confidence : ℚ
  title : Option String
  relationship_ids : List String
  created_at : Nat
  versioned_at : Nat
deriving DecidableEq, Repr

/-- `MemoryEvent` audit record. -/
structure MemoryEvent where
  event_id : String
  memory_id : String
  version_number : Nat
  event_type : MemoryEventType
  event_data : EventData
  timestamp : Nat
  changed_by : Option String
deriving DecidableEq, Repr

/-- `MemoryRelationship` directed edge. -/
structure MemoryRelationship where
  id : String
  from_memory_id : String
  to_memory_id : String
  type : String
  score : Option ℚ
  created_at : Nat
  created_in_version : Option Nat
  deleted_in_version : Option Nat
deriving DecidableEq, Repr

/-- `MemoryCreateInput`. -/
structure MemoryCreateInput where
  type : String
  content : Payload
  text : String
  source : String
  tags : Option (List String)
  confidence : Option ℚ
  title : Option String
deriving DecidableEq, Repr

/-- `MemoryUpdateInput`: every field optional; `none` models `undefined`. -/
structure MemoryUpdateInput where
  type : Option String := none
  content : Option Payload := none
  text : Option String := none
  source : Option String := none
  tags : Option (List String) := none
  confidence : Option ℚ := none
  title : Option String := none
deriving DecidableEq, Repr

/-- `RelationshipCreateInput`. -/
structure RelationshipCreateInput where
  from_memory_id : String
  to_memory_id : String
  type : String
  score : Option ℚ
deriving DecidableEq, Repr

/-- The four LanceDB tables of `StorageService`, as in-memory lists
(row order models insertion order; `add` appends). -/
structure Store where
  memories : List Memory
  versions : List MemoryVersion
  events : List MemoryEvent
  relationships : List MemoryRelationship
deriving DecidableEq, Repr

namespace StorageService

/-- `getMemory(id, includeEmbeddings)`: dummy-vector search filtered by id
with limit 1, i.e. the first stored row with that id; embeddings stripped
unless requested. -/
def getMemory (s : Store) (id : String) (includeEmbeddings : Bool := false) :
    Option Memory :=
  (s.memories.find? (fun r => r.id = id)).map fun row =>
    if includeEmbeddings then row
    else { row with embedding := none, embedding_metadata := none }

/-- `getRelationshipIds(memoryId)`: ids of non-soft-deleted relationships
touching the memory. -/
def getRelationshipIds (s : Store) (memoryId : String) : List String :=
  (s.relationships.filter fun r =>
    (r.from_memory_id = memoryId ∨ r.to_memory_id = memoryId) ∧
      r.deleted_in_version = none).map (fun r => r.id)

/-- `createVersionSnapshot(memory, relationshipIds)`: the snapshot row,
tagged with the memory's *current* version number; embeddings are not
copied (the `MemoryVersion` shape has no embedding fields). -/
def createVersionSnapshot (m : Memory) (relationshipIds : List String)
    (versionId : String) (now : Nat) : MemoryVersion :=
  { version_id := versionId
    memory_id := m.id
    version_number := m.current_version
    type := m.type
    content := m.content
    text := m.text
    source := m.source
    tags := m.tags
    confidence := m.confidence
    title := m.title
    relationship_ids := relationshipIds
    created_at := m.created_at
    versioned_at := now }

/-- `logEvent(memoryId, versionNumber, eventType, eventData)`: the appended
event row (`changed_by` is always `null` in the source). -/
def mkEvent (memoryId : String) (versionNumber : Nat) (eventType : MemoryEventType)
    (eventData : EventData) (eventId : String) (now : Nat) : MemoryEvent :=
  { event_id := eventId
    memory_id := memoryId
    version_number := versionNumber
    event_type := eventType
    event_data := eventData
    timestamp := now
    changed_by := none }

/-- `storeMemory(input, embedding, embeddingMetadata)`: builds the new
Memory at version 1 (JS `input.tags || []`, `input.confidence ?? 1.0`,
`input.title || null` — an empty-string title is falsy and becomes null),
inserts the row with the supplied vectors, writes the initial version
snapshot and logs a `Created` event. -/
def storeMemory (s : Store) (input : MemoryCreateInput)
    (embedding embeddingMetadata : List ℚ)
    (newId versionId eventId : String) (now : Nat) : Memory × Store :=
  let memory : Memory :=
    { id := newId
      type := input.type
      content := input.content
      text := input.text
      source := input.source
      tags := input.tags.getD []
      confidence := input.confidence.getD 1
      title := match input.title with
        | some t => if t = "" then none else some t
        | none => none
      current_version := 1
      created_at := now
      updated_at := now
      relationship_count := 0
      embedding := none
      embedding_metadata := none }
  let row : Memory :=
    { memory with embedding := some embedding, embedding_metadata := some embeddingMetadata }
  let snap := createVersionSnapshot memory [] versionId now
  let ev := mkEvent memory.id 1 .created (.createdData memory.type memory.tags) eventId now
  (memory,
    { s with
        memories := s.memories ++ [row]
        versions := s.versions ++ [snap]
        events := s.events ++ [ev] })

/-- The updated Memory produced by spreading `updates` over `current`
(`{...current, ...updates}` with defined fields winning), then forcing
`current_version + 1` and the new `updated_at`. -/
def applyUpdates (current : Memory) (u : MemoryUpdateInput) (now : Nat) : Memory :=
  { current with
      type := u.type.getD current.type
      content := u.content.getD current.content
      text := u.text.getD current.text
      source := u.source.getD current.source
      tags := u.tags.getD current.tags
      confidence := u.confidence.getD current.confidence
      title := match u.title with
        | some t => some t
        | none => current.title
      current_version := current.current_version + 1
      updated_at := now }

/-- The update events logged by `updateMemory`: one per *supplied* field
among content, tags and title (checked with `!== undefined`); no event is
logged for the type, text, source or confidence fields. -/
def updateEvents (id : String) (current updated : Memory) (u : MemoryUpdateInput)
    (eventIds : Nat → String) (now : Nat) : List MemoryEvent :=
  (match u.content with
    | some _ => [mkEvent id updated.current_version .contentUpdated
        (.contentUpdatedData current.current_version) (eventIds 0) now]
    | none => []) ++
  (match u.tags with
    | some newTags => [mkEvent id updated.current_version .tagsUpdated
        (.tagsUpdatedData current.tags newTags) (eventIds 1) now]
    | none => []) ++
  (match u.title with
    | some newTitle => [mkEvent id updated.current_version .titleUpdated
        (.titleUpdatedData current.title (some newTitle)) (eventIds 2) now]
    | none => [])

/-- `updateMemory(id, updates, embedding?, embeddingMetadata?)`: reads the
current row (with embeddings), snapshots it at its pre-update version
number, applies the partial fields, bumps `current_version`, replaces the
row (delete-then-insert) keeping the old vectors when none are supplied
(`embedding || current.embedding`), and logs the update events. -/
def updateMemory (s : Store) (id : String) (u : MemoryUpdateInput)
    (embedding embeddingMetadata : Option (List ℚ))
    (versionId : String) (eventIds : Nat → String) (now : Nat) :
    Option Memory × Store :=
  match getMemory s id true with
  | none => (none, s)
  | some current =>
    let relationshipIds := getRelationshipIds s id
    let snap := createVersionSnapshot current relationshipIds versionId now
    let updated := applyUpdates current u now
    let row : Memory :=
      { updated with
          embedding := match embedding with
            | some e => some e
            | none => current.embedding
          embedding_metadata := match embeddingMetadata with
            | some e => some e
            | none => current.embedding_metadata }
    let evs := updateEvents id current updated u eventIds now
    (some updated,
      { s with
          memories := (s.memories.filter fun r => r.id ≠ id) ++ [row]
          versions := s.versions ++ [snap]
          events := s.events ++ evs })

/-- `deleteMemory(id)`: not-found yields `false` with no change; otherwise
removes the memory row, every version and event of the memory, and every
relationship whose source or target is the memory. -/
def deleteMemory (s : Store) (id : String) : Bool × Store :=
  match getMemory s id with
  | none => (false, s)
  | some _ =>
    (true,
      { memories := s.memories.filter fun r => r.id ≠ id
        versions := s.versions.filter fun v => v.memory_id ≠ id
        events := s.events.filter fun e => e.memory_id ≠ id
        relationships := s.relationships.filter fun r =>
          ¬(r.from_memory_id = id ∨ r.to_memory_id = id) })

/-- `delete(id)` (the MCP-facing variant): same cascade, but the
relationship pass fetches the non-soft-deleted relationships touching the
memory and deletes each fetched row by its id. -/
def deleteM (s : Store) (id : String) : Bool × Store :=
  match getMemory s id with
  | none => (false, s)
  | some _ =>
    let fetchedIds :=
      ((s.relationships.filter fun r =>
        (r.from_memory_id = id ∨ r.to_memory_id = id) ∧
          r.deleted_in_version = none).map (fun r => r.id))
    (true,
      { memories := s.memories.filter fun r => r.id ≠ id
        versions := s.versions.filter fun v => v.memory_id ≠ id
        events := s.events.filter fun e => e.memory_id ≠ id
        relationships := s.relationships.filter fun r => r.id ∉ fetchedIds })

/-- `getVersionHistory(memoryId)`: all versions of the memory, sorted by
version number descending (JS `sort((a, b) => b.version_number - a.version_number)`). -/
def getVersionHistory (s : Store) (memoryId : String) : List MemoryVersion :=
  ((s.versions.filter fun v => v.memory_id = memoryId).mergeSort
    fun a b => b.version_number ≤ a.version_number)

/-- `getVersion(versionId)`: first stored version row with that id. -/
def getVersion (s : Store) (versionId : String) : Option MemoryVersion :=
  s.versions.find? (fun v => v.version_id = versionId)

/-- `revertToVersion(memoryId, versionId)`: null when the version is
missing or belongs to another memory (or the memory itself is gone);
otherwise snapshots the current state, rebuilds the Memory from the
target version's fields — keeping id, `created_at`, `relationship_count`
and the current embedding vectors — bumps `current_version`, replaces the
row and logs one `Reverted` event. -/
def revertToVersion (s : Store) (memoryId versionId : String)
    (snapVersionId eventId : String) (now : Nat) : Option Memory × Store :=
  match getVersion s versionId with
  | none => (none, s)
  | some version =>
    if version.memory_id ≠ memoryId then (none, s)
    else
      match getMemory s memoryId true with
      | none => (none, s)
      | some current =>
        let relationshipIds := getRelationshipIds s memoryId
        let snap := createVersionSnapshot current relationshipIds snapVersionId now
        let reverted : Memory :=
          { id := memoryId
            type := version.type
            content := version.content
            text := version.text
            source := version.source
            tags := version.tags
            confidence := version.confidence
            title := version.title
            current_version := current.current_version + 1
            created_at := current.created_at
            updated_at := now
            relationship_count := current.relationship_count
            embedding := none
            embedding_metadata := none }
        let row : Memory :=
          { reverted with
              embedding := current.embedding
              embedding_metadata := current.embedding_metadata }
        let ev := mkEvent memoryId reverted.current_version .reverted
          (.revertedData version.version_number current.current_version) eventId now
        (some reverted,
          { s with
              memories := (s.memories.filter fun r => r.id ≠ memoryId) ++ [row]
              versions := s.versions ++ [snap]
              events := s.events ++ [ev] })

/-- `incrementRelationshipCount(memoryId)`: silently no-ops when the memory
is missing; otherwise re-reads the row (with embeddings), deletes it and
re-inserts it with the count bumped by one. -/
def incrementRelationshipCount (s : Store) (memoryId : String) : Store :=
  match getMemory s memoryId true with
  | none => s
  | some memory =>
    { s with
        memories := (s.memories.filter fun r => r.id ≠ memoryId) ++
          [{ memory with relationship_count := memory.relationship_count + 1 }] }

/-- JS `input.score || null`: a zero score is falsy and becomes null. -/
def normalizeScore (score : Option ℚ) : Option ℚ :=
  match score with
  | some q => if q = 0 then none else some q
  | none => none

/-- `createRelationship(input)`: writes the edge (JS `input.score || null`
turns a zero score into null), bumps both endpoint counts and logs a
`RelationshipAdded` event on the source with version number 0. -/
def createRelationship (s : Store) (input : RelationshipCreateInput)
    (relId eventId : String) (now : Nat) : MemoryRelationship × Store :=
  let rel : MemoryRelationship :=
    { id := relId
      from_memory_id := input.from_memory_id
      to_memory_id := input.to_memory_id
      type := input.type
      score := normalizeScore input.score
      created_at := now
      created_in_version := none
      deleted_in_version := none }
  let s1 := { s with relationships := s.relationships ++ [rel] }
  let s2 := incrementRelationshipCount s1 input.from_memory_id
  let s3 := incrementRelationshipCount s2 input.to_memory_id
  let ev := mkEvent input.from_memory_id 0 .relationshipAdded
    (.relationshipAddedData rel.id input.to_memory_id input.type) eventId now
  (rel, { s3 with events := s3.events ++ [ev] })

/-- `SearchOptions` (limit/threshold/types/tags optional). -/
structure SearchOptions where
  limit : Option Nat := none
  threshold : Option ℚ := none
  types : Option (List String) := none
  tags : Option (List String) := none
  includeContent : Bool := false
deriving DecidableEq, Repr

/-- `SearchResult`. -/
structure SearchResult where
  memory : Memory
  score : ℚ
  matched_on : String
deriving DecidableEq, Repr

/-- `options.limit || 10`: JS `||` treats 0 as falsy. -/
def searchEffLimit (o : SearchOptions) : Nat :=
  match o.limit with
  | some n => if n = 0 then 10 else n
  | none => 10

/-- `options.threshold || 0.7`: a zero threshold is falsy and falls back
to the default. -/
def searchEffThreshold (o : SearchOptions) : ℚ :=
  match o.threshold with
  | some t => if t = 0 then 7/10 else t
  | none => 7/10

/-- The candidate count requested from the substrate's nearest-neighbour
primitive by `search`: `limit * 2`. -/
def searchRequestLimit (o : SearchOptions) : Nat := 2 * searchEffLimit o

/-- The result row built by `search` for a surviving candidate: content
and text are included only when `includeContent` is set; stored embedding
vectors are never copied into results. -/
def searchResultRow (o : SearchOptions) (row : Memory) (score : ℚ) : SearchResult :=
  { memory :=
      { row with
          content := if o.includeContent then row.content else []
          text := if o.includeContent then row.text else ""
          embedding := none
          embedding_metadata := none }
    score := score
    matched_on := "content" }

/-- `search(options, queryEmbedding)` post-processing of the substrate
response `candidates` (pairs of row and optional `_distance`): converts
each distance to `1 - distance` (a missing distance counts as 0), keeps
scores at or above the threshold, then — when a non-empty tag filter is
given — returns the tag-filtered survivors *without* the final
truncation, and otherwise truncates to the effective limit. -/
def search (o : SearchOptions) (candidates : List (Memory × Option ℚ)) :
    List SearchResult :=
  let threshold := searchEffThreshold o
  let searchResults := candidates.filterMap fun c =>
    let score := 1 - (c.2.getD 0)
    if threshold ≤ score then some (searchResultRow o c.1 score) else none
  match o.tags with
  | some tagList =>
    if tagList ≠ [] then
      searchResults.filter fun r => tagList.any fun t => r.memory.tags.contains t
    else searchResults.take (searchEffLimit o)
  | none => searchResults.take (searchEffLimit o)

/-- The mapped row of `listMemories` (no embedding fields in the mapping). -/
def listRow (row : Memory) : Memory :=
  { row with embedding := none, embedding_metadata := none }

/-- `listMemories(limit, offset, types?, tags?)` post-processing of the
substrate response `fetched` (already type-filtered and capped at `limit`
by the pushed-down query): maps the rows, tag-filters in memory, then
applies the offset by slicing the result. -/
def listMemories (offset : Nat) (tags : Option (List String))
    (fetched : List Memory) : List Memory :=
  let memories := fetched.map listRow
  let filtered := match tags with
    | some tagList =>
      if tagList ≠ [] then
        memories.filter fun (m : Memory) => tagList.any fun t => m.tags.contains t
      else memories
    | none => memories
  filtered.drop offset

/-- The `options` parameter shape of `searchWithMetadataEmbedding`
(its `limit` and `threshold` reads). -/
structure SwmeOptions where
  limit : Option Nat := none
  threshold : Option ℚ := none
deriving DecidableEq, Repr

/-- `options?.limit || 10`. -/
def swmeEffLimit (o : Option SwmeOptions) : Nat :=
  match o with
  | some opts =>
    (match opts.limit with
      | some n => if n = 0 then 10 else n
      | none => 10)
  | none => 10

/-- `options?.threshold || 0.5`. -/
def swmeEffThreshold (o : Option SwmeOptions) : ℚ :=
  match o with
  | some opts =>
    (match opts.threshold with
      | some t => if t = 0 then 1/2 else t
      | none => 1/2)
  | none => 1/2

/-- The collection loop of `searchWithMetadataEmbedding`: pushes each
candidate whose score clears the threshold and breaks as soon as the
accumulator reaches the limit (the length check runs at the end of every
iteration). -/
def swmeLoop (threshold : ℚ) (lim : Nat) :
    List (Memory × Option ℚ) → List SearchResult → List SearchResult
  | [], acc => acc
  | c :: rest, acc =>
    let score := 1 - (c.2.getD 0)
    let acc' :=
      if threshold ≤ score then
        acc ++ [{ memory := { c.1 with embedding := none, embedding_metadata := none }
                  score := score
                  matched_on := "metadata" }]
      else acc
    if lim ≤ acc'.length then acc' else swmeLoop threshold lim rest acc'

/-- `searchWithMetadataEmbedding(queryEmbedding, options?)` post-processing
of the substrate response (requested with `limit * 2`). -/
def searchWithMetadataEmbedding (o : Option SwmeOptions)
    (candidates : List (Memory × Option ℚ)) : List SearchResult :=
  swmeLoop (swmeEffThreshold o) (swmeEffLimit o) candidates []

/-- A JavaScript number bound to the `options` parameter: property access
on a primitive number yields `undefined` for both `.limit` and
`.threshold`.  This models the runtime effect of the tool layer's call
`searchWithMetadataEmbedding(query, limit, threshold, filterTags)` against
the actual signature `searchWithMetadataEmbedding(queryEmbedding, options?)`,
which binds the numeric second argument to `options` and drops the rest
(the call site is marked `API signature mismatch, needs refactoring` in
the source). -/
def numberAsSwmeOptions (_x : ℚ) : SwmeOptions :=
  { limit := none, threshold := none }

end StorageService

namespace MemoryTools

/-- What `searchMemories` reports back: the results, whether the relaxed
threshold was used, and the threshold value it claims was applied. -/
structure ToolSearchReport where
  memories : List StorageService.SearchResult
  usedFallback : Bool
  actualThreshold : ℚ
deriving DecidableEq, Repr

/-- The fallback control flow of `MemoryTools.searchMemories`, evaluated
with JavaScript argument-passing semantics: both storage calls pass the
numeric second positional argument as the `options` object, so both run
with default limit and threshold.  `candidates` is the substrate response
(identical for both attempts, since the effective requests are identical). -/
def searchMemoriesTool (candidates : List (Memory × Option ℚ))
    (lim minSimilarity : ℚ) : ToolSearchReport :=
  let memories := StorageService.searchWithMetadataEmbedding
    (some (StorageService.numberAsSwmeOptions lim)) candidates
  if memories = [] ∧ 0 < minSimilarity then
    let fallbackThreshold := max 0 (minSimilarity - 1/10)
    let retried := StorageService.searchWithMetadataEmbedding
      (some (StorageService.numberAsSwmeOptions fallbackThreshold)) candidates
    if retried ≠ [] then
      { memories := retried, usedFallback := true, actualThreshold := fallbackThreshold }
    else
      { memories := retried, usedFallback := false, actualThreshold := minSimilarity }
  else
    { memories := memories, usedFallback := false, actualThreshold := minSimilarity }

end MemoryTools

namespace Routes

/-- Outcome of the `POST /api/relationships` handler. -/
inductive RelationshipRouteResult
  | ok (rel : MemoryRelationship)
  | validationFailed
  | notFound
deriving DecidableEq, Repr

/-- The `POST /api/relationships` handler: rejects missing required fields
(JS falsiness: an empty string fails the check), verifies both endpoint
memories exist (404 otherwise, writing nothing), then delegates to
`createRelationship`. -/
def postRelationship (s : Store) (from_memory_id to_memory_id type : String)
    (score : Option ℚ) (relId eventId : String) (now : Nat) :
    RelationshipRouteResult × Store :=
  if from_memory_id = "" ∨ to_memory_id = "" ∨ type = "" then
    (.validationFailed, s)
  else
    match StorageService.getMemory s from_memory_id,
        StorageService.getMemory s to_memory_id with
    | some _, some _ =>
      let (rel, s') := StorageService.createRelationship s
        ⟨from_memory_id, to_memory_id, type, score⟩ relId eventId now
      (.ok rel, s')
    | _, _ => (.notFound, s)

end Routes

namespace DiffService

/-- Classification of a diff line. -/
inductive DiffType
  | added
  | removed
  | unchanged
deriving DecidableEq, Repr

/-- `DiffLine` from `packages/server/src/services/diff.ts`. -/
structure DiffLine where
  type : DiffType
  content : String
  oldLineNumber : Option Nat := none
  newLineNumber : Option Nat := none
deriving DecidableEq, Repr

/-- The `stats` counters of a `DiffResult`. -/
structure DiffStats where
  added : Nat
  removed : Nat
  unchanged : Nat
deriving DecidableEq, Repr

/-- `DiffResult`. -/
structure DiffResult where
  lines : List DiffLine
  stats : DiffStats
deriving DecidableEq, Repr

/-- JS `text.split('\n')`: exact char-level split (`"".split` gives `[""]`,
matching `List.splitOn` on the empty list). -/
def splitLines (s : String) : List String :=
  (s.data.splitOn '\n').map fun l => String.mk l

/-- JS `lines.join('\n')`. -/
def joinLines (ls : List String) : String :=
  String.mk (List.intercalate ['\n'] (ls.map String.data))

/-- A run of consecutive `removed` lines with old line numbers starting
at `n` (the first inner while loop of `computeDiff`). -/
def removedRun : List String → Nat → List DiffLine
  | [], _ => []
  | l :: ls, n => ⟨.removed, l, some n, none⟩ :: removedRun ls (n + 1)

/-- A run of consecutive `added` lines with new line numbers starting at
`n` (the second inner while loop of `computeDiff`). -/
def addedRun : List String → Nat → List DiffLine
  | [], _ => []
  | l :: ls, n => ⟨.added, l, none, some n⟩ :: addedRun ls (n + 1)

/-- `computeDiff(oldLines, newLines)` driven by the common-subsequence
list: for each common line, emit old lines as `removed` until it appears,
new lines as `added` until it appears, then (when both cursors are still
in range) one `unchanged` line consuming both; trailing old and new lines
are flushed as `removed` and `added`. -/
def computeDiffAux : List String → List String → List String → Nat → Nat → List DiffLine
  | [], old, newL, oldNum, newNum => removedRun old oldNum ++ addedRun newL newNum
  | c :: rest, old, newL, oldNum, newNum =>
    let rem := old.takeWhile fun l => l ≠ c
    let old1 := old.dropWhile fun l => l ≠ c
    let add := newL.takeWhile fun l => l ≠ c
    let new1 := newL.dropWhile fun l => l ≠ c
    let oldNum1 := oldNum + rem.length
    let newNum1 := newNum + add.length
    removedRun rem oldNum ++ addedRun add newNum ++
      match old1, new1 with
      | _ :: old2, _ :: new2 =>
        ⟨.unchanged, c, some oldNum1, some newNum1⟩ ::
          computeDiffAux rest old2 new2 (oldNum1 + 1) (newNum1 + 1)
      | _, _ => computeDiffAux rest old1 new1 oldNum1 newNum1

/-- The full DP table of `longestCommonSubsequence`: `lcsLen a b i j` is
`dp[i][j]`, the LCS length of the first `i` lines of `a` and the first
`j` lines of `b`. -/
def lcsLen (a b : List String) : Nat → Nat → Nat
  | 0, _ => 0
  | _ + 1, 0 => 0
  | i + 1, j + 1 =>
    if a.getD i "" = b.getD j "" then lcsLen a b i j + 1
    else max (lcsLen a b i (j + 1)) (lcsLen a b (i + 1) j)
termination_by i j => (i, j)

/-- The backtracking walk over the DP table, accumulating the common
subsequence front-first (JS `lcs.unshift`). -/
def lcsBacktrack (a b : List String) : Nat → Nat → List String → List String
  | 0, _, acc => acc
  | _ + 1, 0, acc => acc
  | i + 1, j + 1, acc =>
    if a.getD i "" = b.getD j "" then
      lcsBacktrack a b i j (a.getD i "" :: acc)
    else if lcsLen a b (i + 1) j < lcsLen a b i (j + 1) then
      lcsBacktrack a b i (j + 1) acc
    else
      lcsBacktrack a b (i + 1) j acc
termination_by i j => (i, j)

/-- `longestCommonSubsequence(arr1, arr2)`. -/
def longestCommonSubsequence (a b : List String) : List String :=
  lcsBacktrack a b a.length b.length []

/-- `diff(oldText, newText)`: split, LCS, classify, count. -/
def diff (oldText newText : String) : DiffResult :=
  let oldLines := splitLines oldText
  let newLines := splitLines newText
  let lines :=
    computeDiffAux (longestCommonSubsequence oldLines newLines) oldLines newLines 1 1
  { lines := lines
    stats :=
      { added := (lines.filter fun l => l.type = .added).length
        removed := (lines.filter fun l => l.type = .removed).length
        unchanged := (lines.filter fun l => l.type = .unchanged).length } }

/-- The old-side projection of a classified line sequence: contents of
the `removed` and `unchanged` lines, in order. -/
def oldProj (ls : List DiffLine) : List String :=
  ls.filterMap fun l =>
    match l.type with
    | .removed => some l.content
    | .unchanged => some l.content
    | .added => none

/-- The new-side projection: contents of the `added` and `unchanged`
lines, in order. -/
def newProj (ls : List DiffLine) : List String :=
  ls.filterMap fun l =>
    match l.type with
    | .added => some l.content
    | .unchanged => some l.content
    | .removed => none

/-- Applying an edit script to a line sequence: `removed` and `unchanged`
lines must match and consume an input line, `added` and `unchanged` lines
are emitted; the input must be consumed exactly. -/
def applyEdits : List String → List DiffLine → Option (List String)
  | rest, [] => if rest = [] then some [] else none
  | rest, dl :: ls =>
    match dl.type with
    | .added => (applyEdits rest ls).map fun out => dl.content :: out
    | .removed =>
      match rest with
      | r :: rs => if r = dl.content then applyEdits rs ls else none
      | [] => none
    | .unchanged =>
      match rest with
      | r :: rs =>
        if r = dl.content then (applyEdits rs ls).map fun out => dl.content :: out
        else none
      | [] => none

/-- Applying a produced edit script to the old text, rejoining with
newlines. -/
def applyEditScript (a : String) (script : List DiffLine) : Option String :=
  (applyEdits (splitLines a) script).map joinLines

theorem oldProj_append (l1 l2 : List DiffLine) :
    oldProj (l1 ++ l2) = oldProj l1 ++ oldProj l2 :=
  List.filterMap_append ..

theorem newProj_append (l1 l2 : List DiffLine) :
    newProj (l1 ++ l2) = newProj l1 ++ newProj l2 :=
  List.filterMap_append ..

theorem oldProj_removedRun : ∀ (ls : List String) (n : Nat),
    oldProj (removedRun ls n) = ls := by
  intro ls
  induction ls with
  | nil => intro n; rfl
  | cons l t ih => intro n; simp [removedRun, oldProj, List.filterMap_cons] at ih ⊢; exact ih (n + 1)

theorem oldProj_addedRun : ∀ (ls : List String) (n : Nat),
    oldProj (addedRun ls n) = [] := by
  intro ls
  induction ls with
  | nil => intro n; rfl
  | cons l t ih => intro n; simp [addedRun, oldProj, List.filterMap_cons] at ih ⊢; exact ih (n + 1)

theorem newProj_removedRun : ∀ (ls : List String) (n : Nat),
    newProj (removedRun ls n) = [] := by
  intro ls
  induction ls with
  | nil => intro n; rfl
  | cons l t ih => intro n; simp [removedRun, newProj, List.filterMap_cons] at ih ⊢; exact ih (n + 1)

theorem newProj_addedRun : ∀ (ls : List String) (n : Nat),
    newProj (addedRun ls n) = ls := by
  intro ls
  induction ls with
  | nil => intro n; rfl
  | cons l t ih => intro n; simp [addedRun, newProj, List.filterMap_cons] at ih ⊢; exact ih (n + 1)

theorem dropWhile_head_false {α : Type} (p : α → Bool) :
    ∀ (l : List α) (a : α) (t : List α), l.dropWhile p = a :: t → p a = false := by
  intro l
  induction l with
  | nil => intro a t h; simp [List.dropWhile] at h
  | cons x xs ih =>
    intro a t h
    rw [List.dropWhile_cons] at h
    by_cases hx : p x = true
    · rw [if_pos hx] at h; exact ih a t h
    · rw [if_neg hx] at h
      cases h
      exact Bool.eq_false_iff.mpr hx

theorem oldProj_cons_unchanged (c : String) (a b : Option Nat) (L : List DiffLine) :
    oldProj (⟨.unchanged, c, a, b⟩ :: L) = c :: oldProj L := rfl

theorem newProj_cons_unchanged (c : String) (a b : Option Nat) (L : List DiffLine) :
    newProj (⟨.unchanged, c, a, b⟩ :: L) = c :: newProj L := rfl

/-- Both projections of the classified sequence reconstruct the inputs,
for an arbitrary driving common-line list. -/
theorem computeDiffAux_proj :
    ∀ (lcs old newL : List String) (oldNum newNum : Nat),
      oldProj (computeDiffAux lcs old newL oldNum newNum) = old ∧
      newProj (computeDiffAux lcs old newL oldNum newNum) = newL := by
  intro lcs
  induction lcs with
  | nil =>
    intro old newL oldNum newNum
    constructor
    · simp [computeDiffAux, oldProj_append, oldProj_removedRun, oldProj_addedRun]
    · simp [computeDiffAux, newProj_append, newProj_removedRun, newProj_addedRun]
  | cons c rest ih =>
    intro old newL oldNum newNum
    obtain ⟨rem, hre⟩ : ∃ rem, (old.takeWhile fun l => l ≠ c) = rem := ⟨_, rfl⟩
    obtain ⟨old1, hd1⟩ : ∃ o1, (old.dropWhile fun l => l ≠ c) = o1 := ⟨_, rfl⟩
    obtain ⟨add, hra⟩ : ∃ a1, (newL.takeWhile fun l => l ≠ c) = a1 := ⟨_, rfl⟩
    obtain ⟨new1, hd2⟩ : ∃ n1, (newL.dropWhile fun l => l ≠ c) = n1 := ⟨_, rfl⟩
    have hOld : rem ++ old1 = old := by
      rw [← hre, ← hd1]; exact List.takeWhile_append_dropWhile ..
    have hNew : add ++ new1 = newL := by
      rw [← hra, ← hd2]; exact List.takeWhile_append_dropWhile ..
    rcases old1 with _ | ⟨o, old2⟩ <;> rcases new1 with _ | ⟨nn, new2⟩
    · constructor
      · simp only [computeDiffAux, hre, hd1, hra, hd2, oldProj_append,
          oldProj_removedRun, oldProj_addedRun]
        rw [(ih _ _ _ _).1]
        simpa using hOld
      · simp only [computeDiffAux, hre, hd1, hra, hd2, newProj_append,
          newProj_removedRun, newProj_addedRun]
        rw [(ih _ _ _ _).2]
        simpa using hNew
    · constructor
      · simp only [computeDiffAux, hre, hd1, hra, hd2, oldProj_append,
          oldProj_removedRun, oldProj_addedRun]
        rw [(ih _ _ _ _).1]
        simpa using hOld
      · simp only [computeDiffAux, hre, hd1, hra, hd2, newProj_append,
          newProj_removedRun, newProj_addedRun]
        rw [(ih _ _ _ _).2]
        simpa using hNew
    · constructor
      · simp only [computeDiffAux, hre, hd1, hra, hd2, oldProj_append,
          oldProj_removedRun, oldProj_addedRun]
        rw [(ih _ _ _ _).1]
        simpa using hOld
      · simp only [computeDiffAux, hre, hd1, hra, hd2, newProj_append,
          newProj_removedRun, newProj_addedRun]
        rw [(ih _ _ _ _).2]
        simpa using hNew
    · have hoc : o = c := by
        have hfalse := dropWhile_head_false (fun l => decide (l ≠ c)) old o old2 hd1
        simpa using hfalse
      have hnc : nn = c := by
        have hfalse := dropWhile_head_false (fun l => decide (l ≠ c)) newL nn new2 hd2
        simpa using hfalse
      subst hoc
      subst hnc
      constructor
      · simp only [computeDiffAux, hre, hd1, hra, hd2, oldProj_append,
          oldProj_removedRun, oldProj_addedRun, oldProj_cons_unchanged]
        rw [(ih _ _ _ _).1]
        simpa using hOld
      · simp only [computeDiffAux, hre, hd1, hra, hd2, newProj_append,
          newProj_removedRun, newProj_addedRun, newProj_cons_unchanged]
        rw [(ih _ _ _ _).2]
        simpa using hNew

/-- Applying the script succeeds on exactly the old-side projection of
the script and emits the new-side projection. -/
theorem applyEdits_of_oldProj :
    ∀ (script : List DiffLine) (rest : List String),
      oldProj script = rest → applyEdits rest script = some (newProj script) := by
  intro script
  induction script with
  | nil =>
    intro rest h
    simp only [oldProj, List.filterMap_nil] at h
    subst h
    rfl
  | cons dl ls ih =>
    intro rest h
    rcases dl with ⟨ty, content, olN, nlN⟩
    cases ty
    case added =>
      have h' : oldProj ls = rest := by
        simpa [oldProj, List.filterMap_cons] using h
      have hred : applyEdits rest (⟨.added, content, olN, nlN⟩ :: ls) =
          (applyEdits rest ls).map fun out => content :: out := rfl
      rw [hred, ih rest h']
      simp [newProj, List.filterMap_cons]
    case removed =>
      have h' : content :: oldProj ls = rest := by
        simpa [oldProj, List.filterMap_cons] using h
      subst h'
      have hred : applyEdits (content :: oldProj ls) (⟨.removed, content, olN, nlN⟩ :: ls) =
          if content = content then applyEdits (oldProj ls) ls else none := rfl
      rw [hred, if_pos rfl, ih _ rfl]
      simp [newProj, List.filterMap_cons]
    case unchanged =>
      have h' : content :: oldProj ls = rest := by
        simpa [oldProj, List.filterMap_cons] using h
      subst h'
      have hred : applyEdits (content :: oldProj ls) (⟨.unchanged, content, olN, nlN⟩ :: ls) =
          if content = content then
            (applyEdits (oldProj ls) ls).map fun out => content :: out
          else none := rfl
      rw [hred, if_pos rfl, ih _ rfl]
      simp [newProj, List.filterMap_cons]

theorem joinLines_splitLines (s : String) : joinLines (splitLines s) = s := by
  unfold joinLines splitLines
  rw [List.map_map]
  have hid : (String.data ∘ fun l => String.mk l) = id := rfl
  rw [hid, List.map_id]
  rw [show List.intercalate ['\x0a'] (s.data.splitOn '\x0a')
      = ['\x0a'].intercalate (s.data.splitOn '\x0a') from rfl]
  rw [List.intercalate_splitOn]

end DiffService

/-- C6: In the classified line sequence of `diff(A, B)`, the subsequence
of `removed`/`unchanged` lines equals the lines of `A` in order and the
subsequence of `added`/`unchanged` lines equals the lines of `B` in
order; consequently applying the produced edit script to `A` reproduces
`B` exactly. -/
theorem C6_diff_projections_and_apply (A B : String) :
    DiffService.oldProj (DiffService.diff A B).lines = DiffService.splitLines A ∧
    DiffService.newProj (DiffService.diff A B).lines = DiffService.splitLines B ∧
    DiffService.applyEditScript A (DiffService.diff A B).lines = some B := by
  have h := DiffService.computeDiffAux_proj
    (DiffService.longestCommonSubsequence (DiffService.splitLines A) (DiffService.splitLines B))
    (DiffService.splitLines A) (DiffService.splitLines B) 1 1
  have hlines : (DiffService.diff A B).lines =
      DiffService.computeDiffAux
        (DiffService.longestCommonSubsequence (DiffService.splitLines A) (DiffService.splitLines B))
        (DiffService.splitLines A) (DiffService.splitLines B) 1 1 := rfl
  refine ⟨?_, ?_, ?_⟩
  · rw [hlines]; exact h.1
  · rw [hlines]; exact h.2
  · unfold DiffService.applyEditScript
    rw [DiffService.applyEdits_of_oldProj _ _ (by rw [hlines]; exact h.1)]
    rw [hlines, h.2]
    simp [DiffService.joinLines_splitLines]

/-! ## Helper lemmas for reasoning about the four collections -/

/-- Filtering by a weaker predicate does not disturb the first match. -/
theorem find?_filter_of_imp {α : Type} (p q : α → Bool) (l : List α)
    (h : ∀ a, p a = true → q a = true) :
    (l.filter q).find? p = l.find? p := by
  induction l with
  | nil => rfl
  | cons x xs ih =>
    by_cases hq : q x = true
    · rw [List.filter_cons_of_pos hq]
      by_cases hp : p x = true
      · rw [List.find?_cons_of_pos _ hp, List.find?_cons_of_pos _ hp]
      · rw [List.find?_cons_of_neg _ (by simpa using hp),
          List.find?_cons_of_neg _ (by simpa using hp)]
        exact ih
    · rw [List.filter_cons_of_neg (by simpa using hq)]
      have hp : ¬p x = true := fun hpx => hq (h x hpx)
      rw [ih, List.find?_cons_of_neg _ (by simpa using hp)]

/-- After a delete-then-insert replace, the lookup finds the new row. -/
theorem find?_replace {α : Type} (p : α → Bool) (l : List α) (x : α) (hx : p x = true) :
    ((l.filter fun a => !p a) ++ [x]).find? p = some x := by
  rw [List.find?_append]
  have h1 : (l.filter fun a => !p a).find? p = none := by
    rw [List.find?_eq_none]
    intro a ha
    have := (List.mem_filter.mp ha).2
    simp at this
    simp [this]
  rw [h1]
  simp [List.find?, hx]

theorem foldr_max_append_singleton (l : List Nat) (x : Nat) :
    (l ++ [x]).foldr max 0 = max (l.foldr max 0) x := by
  induction l with
  | nil => simp
  | cons a t ih => simp [List.foldr_cons, ih, Nat.max_assoc]

theorem foldr_max_le (l : List Nat) (b : Nat) (h : ∀ a ∈ l, a ≤ b) :
    l.foldr max 0 ≤ b := by
  induction l with
  | nil => simp
  | cons a t ih =>
    simp only [List.foldr_cons]
    exact Nat.max_le.mpr ⟨h a (List.mem_cons_self a t), ih fun x hx => h x (List.mem_cons_of_mem a hx)⟩

namespace StorageService

/-- The versions stored for a given memory id. -/
def versionsOf (s : Store) (id : String) : List MemoryVersion :=
  s.versions.filter fun v => v.memory_id = id

/-- The events stored for a given memory id. -/
def eventsOf (s : Store) (id : String) : List MemoryEvent :=
  s.events.filter fun e => e.memory_id = id

/-- The highest `version_number` among a memory's stored snapshots (0 when
there are none). -/
def maxVersionNumber (s : Store) (id : String) : Nat :=
  ((versionsOf s id).map fun v => v.version_number).foldr max 0

theorem getMemory_eq_some_iff (s : Store) (id : String) (m : Memory) :
    getMemory s id true = some m ↔ s.memories.find? (fun r => r.id = id) = some m := by
  unfold getMemory
  cases h : s.memories.find? fun r => r.id = id <;> simp

theorem getMemory_id (s : Store) (id : String) (m : Memory)
    (h : getMemory s id true = some m) : m.id = id := by
  rw [getMemory_eq_some_iff] at h
  simpa using List.find?_some h

theorem find?_memId_filter_none (l : List Memory) (id : String) :
    (l.filter fun r => r.id ≠ id).find? (fun r => r.id = id) = none := by
  rw [List.find?_eq_none]
  intro a ha
  have h2 := (List.mem_filter.mp ha).2
  simp at h2 ⊢
  exact h2

theorem find?_memId_replace (l : List Memory) (id : String) (x : Memory) (hx : x.id = id) :
    ((l.filter fun r => r.id ≠ id) ++ [x]).find? (fun r => r.id = id) = some x := by
  rw [List.find?_append, find?_memId_filter_none]
  simp [List.find?, hx]

theorem find?_memId_filter_ne (l : List Memory) (id other : String) (hne : id ≠ other) :
    (l.filter fun r => r.id ≠ other).find? (fun r => r.id = id) =
      l.find? (fun r => r.id = id) := by
  apply find?_filter_of_imp
  intro a ha
  simp at ha ⊢
  rw [ha]
  exact hne

/-- The post-state facts asserted by C1 for an update of memory `id`
whose pre-update state is `pre`: the history gains a snapshot of the
pre-update fields at the pre-update version number, the returned Memory's
version is bumped by one, and unsupplied embedding vectors are retained
on the stored row. -/
def UpdateSnapshotSpec (s : Store) (id : String) (u : MemoryUpdateInput)
    (embedding embeddingMetadata : Option (List ℚ)) (versionId : String)
    (eventIds : Nat → String) (now : Nat) (pre : Memory) : Prop :=
  let out := updateMemory s id u embedding embeddingMetadata versionId eventIds now
  ∃ m', out.1 = some m' ∧
    (∃ v ∈ getVersionHistory out.2 id,
      v.type = pre.type ∧ v.content = pre.content ∧ v.text = pre.text ∧
      v.source = pre.source ∧ v.tags = pre.tags ∧ v.confidence = pre.confidence ∧
      v.title = pre.title ∧ v.version_number = pre.current_version) ∧
    m'.current_version = pre.current_version + 1 ∧
    (embedding = none →
      (out.2.memories.find? fun r => r.id = id).map (fun r => r.embedding) =
        some pre.embedding) ∧
    (embeddingMetadata = none →
      (out.2.memories.find? fun r => r.id = id).map (fun r => r.embedding_metadata) =
        some pre.embedding_metadata)

end StorageService

/-- C1: after every successful `updateMemory`, the version history of the
memory contains a snapshot whose fields (type, payload, text, source,
tags, confidence, title) equal the pre-update state and whose
`version_number` equals the pre-update `current_version`; the returned
Memory's `current_version` is the pre-update value plus one; and the
stored embedding vectors are unchanged when no new vectors are supplied. -/
theorem C1_update_snapshots_pre_state (s : Store) (id : String)
    (u : MemoryUpdateInput) (embedding embeddingMetadata : Option (List ℚ))
    (versionId : String) (eventIds : Nat → String) (now : Nat) (pre : Memory)
    (hpre : StorageService.getMemory s id true = some pre) :
    StorageService.UpdateSnapshotSpec s id u embedding embeddingMetadata
      versionId eventIds now pre := by
  have hid : pre.id = id := StorageService.getMemory_id s id pre hpre
  unfold StorageService.UpdateSnapshotSpec
  simp only [StorageService.updateMemory, hpre]
  refine ⟨StorageService.applyUpdates pre u now, rfl, ?_, rfl, ?_, ?_⟩
  · refine ⟨StorageService.createVersionSnapshot pre
      (StorageService.getRelationshipIds s id) versionId now,
      ?_, rfl, rfl, rfl, rfl, rfl, rfl, rfl, rfl⟩
    unfold StorageService.getVersionHistory
    rw [List.mem_mergeSort]
    apply List.mem_filter.mpr
    refine ⟨List.mem_append_right _ (List.mem_singleton.mpr rfl), ?_⟩
    simp [StorageService.createVersionSnapshot, hid]
  · intro he
    subst he
    rw [StorageService.find?_memId_replace]
    · rfl
    · simpa [StorageService.applyUpdates] using hid
  · intro he
    subst he
    rw [StorageService.find?_memId_replace]
    · rfl
    · simpa [StorageService.applyUpdates] using hid

/-- A concrete memory used by the witnesses. -/
def mem0 : Memory :=
  { id := "m1", type := "note", content := [("k", "v")], text := "hello",
    source := "user", tags := ["a"], confidence := 1, title := some "t",
    current_version := 1, created_at := 0, updated_at := 0,
    relationship_count := 0, embedding := some [1, 0],
    embedding_metadata := some [0, 1] }

/-- The initial snapshot written when `mem0` was created. -/
def ver0 : MemoryVersion := StorageService.createVersionSnapshot mem0 [] "v1" 0

/-- A fresh-id supply for events. -/
def evFresh : Nat → String := fun n => "e" ++ toString n

/-- A concrete one-memory store used by the witnesses. -/
def store1 : Store :=
  { memories := [mem0], versions := [ver0], events := [], relationships := [] }

theorem C1_update_snapshots_pre_state_witness :
    StorageService.getMemory store1 "m1" true = some mem0 ∧
    StorageService.UpdateSnapshotSpec store1 "m1" { text := some "bye" }
      none none "v2" evFresh 7 mem0 :=
  ⟨by decide,
    C1_update_snapshots_pre_state store1 "m1" { text := some "bye" }
      none none "v2" evFresh 7 mem0 (by decide)⟩

namespace StorageService

/-- Appending one snapshot for `id` raises the recorded maximum to the
max of the old maximum and the snapshot's number. -/
theorem maxVersionNumber_append_snapshot (s s' : Store) (id : String)
    (snap : MemoryVersion) (hid : snap.memory_id = id)
    (hs' : s'.versions = s.versions ++ [snap]) :
    maxVersionNumber s' id = max (maxVersionNumber s id) snap.version_number := by
  unfold maxVersionNumber versionsOf
  rw [hs', List.filter_append, List.map_append]
  have hone : ([snap].filter fun v => v.memory_id = id) = [snap] := by
    simp [List.filter, hid]
  rw [hone]
  exact foldr_max_append_singleton ..

/-- Bounded old snapshots keep the maximum at the freshly written
snapshot's number. -/
theorem maxVersionNumber_after_snapshot (s s' : Store) (id : String)
    (snap : MemoryVersion) (hid : snap.memory_id = id)
    (hs' : s'.versions = s.versions ++ [snap]) (bound : Nat)
    (hb : ∀ v ∈ versionsOf s id, v.version_number ≤ bound)
    (hsnap : snap.version_number = bound) :
    maxVersionNumber s' id = bound := by
  rw [maxVersionNumber_append_snapshot s s' id snap hid hs', hsnap]
  have hle : maxVersionNumber s id ≤ bound := by
    apply foldr_max_le
    intro a ha
    obtain ⟨v, hv, rfl⟩ := List.mem_map.mp ha
    exact hb v hv
  exact Nat.max_eq_right hle

end StorageService

/-- Counterexample to C2 as stated: immediately after `storeMemory`
(a "create" mutation), the new Memory's `current_version` is 1 and the
highest stored `version_number` is also 1 — the initial snapshot is taken
*at* version 1, so `current_version` equals the highest snapshot number
rather than exceeding it by one. -/
theorem C2_counterexample_create :
    (StorageService.storeMemory ⟨[], [], [], []⟩
      ⟨"note", [], "hi", "user", none, none, none⟩ [1] [1] "m1" "v1" "e1" 0).1.current_version = 1 ∧
    StorageService.maxVersionNumber
      (StorageService.storeMemory ⟨[], [], [], []⟩
        ⟨"note", [], "hi", "user", none, none, none⟩ [1] [1] "m1" "v1" "e1" 0).2 "m1" = 1 ∧
    ¬((StorageService.storeMemory ⟨[], [], [], []⟩
        ⟨"note", [], "hi", "user", none, none, none⟩ [1] [1] "m1" "v1" "e1" 0).1.current_version =
      StorageService.maxVersionNumber
        (StorageService.storeMemory ⟨[], [], [], []⟩
          ⟨"note", [], "hi", "user", none, none, none⟩ [1] [1] "m1" "v1" "e1" 0).2 "m1" + 1) := by
  decide

/-- C2 (amended): after an update or a revert, `current_version` strictly
increases and equals one more than the highest `version_number` among the
memory's snapshots; immediately after a create, `current_version` is 1
and *equals* the highest snapshot number (the initial snapshot is taken
at version 1, not before it). -/
theorem C2_amended_version_alignment :
    (∀ (s : Store) (input : MemoryCreateInput) (e em : List ℚ)
        (newId vId eId : String) (now : Nat),
      StorageService.versionsOf s newId = [] →
      (StorageService.storeMemory s input e em newId vId eId now).1.current_version = 1 ∧
      StorageService.maxVersionNumber
        (StorageService.storeMemory s input e em newId vId eId now).2 newId = 1) ∧
    (∀ (s : Store) (id : String) (u : MemoryUpdateInput)
        (emb embm : Option (List ℚ)) (vId : String) (eIds : Nat → String)
        (now : Nat) (pre : Memory),
      StorageService.getMemory s id true = some pre →
      (∀ v ∈ StorageService.versionsOf s id, v.version_number ≤ pre.current_version) →
      ∃ m', (StorageService.updateMemory s id u emb embm vId eIds now).1 = some m' ∧
        pre.current_version < m'.current_version ∧
        m'.current_version =
          StorageService.maxVersionNumber
            (StorageService.updateMemory s id u emb embm vId eIds now).2 id + 1) ∧
    (∀ (s : Store) (mid vid svId eId : String) (now : Nat)
        (v : MemoryVersion) (cur : Memory),
      StorageService.getVersion s vid = some v → v.memory_id = mid →
      StorageService.getMemory s mid true = some cur →
      (∀ w ∈ StorageService.versionsOf s mid, w.version_number ≤ cur.current_version) →
      ∃ m', (StorageService.revertToVersion s mid vid svId eId now).1 = some m' ∧
        cur.current_version < m'.current_version ∧
        m'.current_version =
          StorageService.maxVersionNumber
            (StorageService.revertToVersion s mid vid svId eId now).2 mid + 1) := by
  refine ⟨?_, ?_, ?_⟩
  · intro s input e em newId vId eId now hempty
    refine ⟨rfl, ?_⟩
    apply StorageService.maxVersionNumber_after_snapshot s _ newId _ rfl rfl 1
    · intro v hv
      rw [hempty] at hv
      cases hv
    · rfl
  · intro s id u emb embm vId eIds now pre hpre hb
    have hid : pre.id = id := StorageService.getMemory_id s id pre hpre
    have h1 : (StorageService.updateMemory s id u emb embm vId eIds now).1 =
        some (StorageService.applyUpdates pre u now) := by
      simp only [StorageService.updateMemory, hpre]
    have h2 : (StorageService.updateMemory s id u emb embm vId eIds now).2.versions =
        s.versions ++ [StorageService.createVersionSnapshot pre
          (StorageService.getRelationshipIds s id) vId now] := by
      simp only [StorageService.updateMemory, hpre]
    refine ⟨StorageService.applyUpdates pre u now, h1, Nat.lt_succ_self _, ?_⟩
    have hmax := StorageService.maxVersionNumber_after_snapshot s _ id
      (StorageService.createVersionSnapshot pre (StorageService.getRelationshipIds s id) vId now)
      (by simpa [StorageService.createVersionSnapshot] using hid) h2
      pre.current_version hb rfl
    rw [hmax]
    rfl
  · intro s mid vid svId eId now v cur hv hvm hcur hb
    have h1 : (StorageService.revertToVersion s mid vid svId eId now).1 =
        some
          { id := mid, type := v.type, content := v.content, text := v.text,
            source := v.source, tags := v.tags, confidence := v.confidence,
            title := v.title, current_version := cur.current_version + 1,
            created_at := cur.created_at, updated_at := now,
            relationship_count := cur.relationship_count,
            embedding := none, embedding_metadata := none } := by
      simp [StorageService.revertToVersion, hv, hvm, hcur]
    have h2 : (StorageService.revertToVersion s mid vid svId eId now).2.versions =
        s.versions ++ [StorageService.createVersionSnapshot cur
          (StorageService.getRelationshipIds s mid) svId now] := by
      simp [StorageService.revertToVersion, hv, hvm, hcur]
    refine ⟨_, h1, Nat.lt_succ_self _, ?_⟩
    have hmax := StorageService.maxVersionNumber_after_snapshot s _ mid
      (StorageService.createVersionSnapshot cur (StorageService.getRelationshipIds s mid) svId now)
      (by simpa [StorageService.createVersionSnapshot] using
        StorageService.getMemory_id s mid cur hcur) h2
      cur.current_version hb rfl
    rw [hmax]

theorem C2_amended_version_alignment_witness :
    (StorageService.versionsOf store1 "m9" = [] ∧
      (StorageService.storeMemory store1 ⟨"note", [], "hi", "user", none, none, none⟩
        [1] [1] "m9" "v9" "e9" 3).1.current_version = 1 ∧
      StorageService.maxVersionNumber
        (StorageService.storeMemory store1 ⟨"note", [], "hi", "user", none, none, none⟩
          [1] [1] "m9" "v9" "e9" 3).2 "m9" = 1) ∧
    (∃ m', (StorageService.updateMemory store1 "m1" { tags := some ["b"] }
        none none "v2" evFresh 7).1 = some m' ∧
      mem0.current_version < m'.current_version ∧
      m'.current_version =
        StorageService.maxVersionNumber
          (StorageService.updateMemory store1 "m1" { tags := some ["b"] }
            none none "v2" evFresh 7).2 "m1" + 1) ∧
    (∃ m', (StorageService.revertToVersion store1 "m1" "v1" "v2" "e1" 9).1 = some m' ∧
      mem0.current_version < m'.current_version ∧
      m'.current_version =
        StorageService.maxVersionNumber
          (StorageService.revertToVersion store1 "m1" "v1" "v2" "e1" 9).2 "m1" + 1) :=
  ⟨⟨by decide,
    C2_amended_version_alignment.1 store1 ⟨"note", [], "hi", "user", none, none, none⟩
      [1] [1] "m9" "v9" "e9" 3 (by decide)⟩,
   C2_amended_version_alignment.2.1 store1 "m1" { tags := some ["b"] }
      none none "v2" evFresh 7 mem0 (by decide) (by decide),
   C2_amended_version_alignment.2.2 store1 "m1" "v1" "v2" "e1" 9 ver0 mem0
      (by decide) (by decide) (by decide) (by decide)⟩

namespace StorageService

theorem versionsOf_append (s s' : Store) (id : String) (snap : MemoryVersion)
    (hid : snap.memory_id = id) (hs' : s'.versions = s.versions ++ [snap]) :
    versionsOf s' id = versionsOf s id ++ [snap] := by
  unfold versionsOf
  rw [hs', List.filter_append]
  simp [List.filter, hid]

theorem eventsOf_append (s s' : Store) (id : String) (evts : List MemoryEvent)
    (hid : ∀ e ∈ evts, e.memory_id = id) (hs' : s'.events = s.events ++ evts) :
    eventsOf s' id = eventsOf s id ++ evts := by
  unfold eventsOf
  rw [hs', List.filter_append]
  congr 1
  rw [List.filter_eq_self]
  intro e he
  simpa using hid e he

/-- The success-path facts asserted by C3 for `revertToVersion`: the
returned Memory takes the snapshot's content fields and the current
state's identity, creation timestamp, relationship count and embedding
vectors, bumps the version, and exactly one `Reverted` event carrying the
target and prior version numbers is appended. -/
def RevertSuccessSpec (s : Store) (mid vid svId eId : String) (now : Nat)
    (v : MemoryVersion) (cur : Memory) : Prop :=
  let out := revertToVersion s mid vid svId eId now
  ∃ rev, out.1 = some rev ∧
    rev.type = v.type ∧ rev.content = v.content ∧ rev.text = v.text ∧
    rev.source = v.source ∧ rev.tags = v.tags ∧ rev.confidence = v.confidence ∧
    rev.title = v.title ∧
    rev.id = mid ∧ rev.created_at = cur.created_at ∧
    rev.relationship_count = cur.relationship_count ∧
    rev.current_version = cur.current_version + 1 ∧
    (out.2.memories.find? fun r => r.id = mid).map (fun r => r.embedding) =
      some cur.embedding ∧
    (out.2.memories.find? fun r => r.id = mid).map (fun r => r.embedding_metadata) =
      some cur.embedding_metadata ∧
    createVersionSnapshot cur (getRelationshipIds s mid) svId now ∈ versionsOf out.2 mid ∧
    eventsOf out.2 mid = eventsOf s mid ++
      [mkEvent mid (cur.current_version + 1) .reverted
        (.revertedData v.version_number cur.current_version) eId now]

end StorageService

/-- C3: `revertToVersion` returns no Memory and leaves the store
untouched when the target version does not exist or belongs to another
memory; otherwise it snapshots the current state, rebuilds the Memory
from the target version's fields keeping identity, creation timestamp,
relationship count and current embedding vectors, increments
`current_version` by one and logs exactly one `Reverted` event recording
the target and prior version numbers. -/
theorem C3_revert_semantics :
    (∀ (s : Store) (mid vid svId eId : String) (now : Nat),
      (StorageService.getVersion s vid = none ∨
        ∃ v, StorageService.getVersion s vid = some v ∧ v.memory_id ≠ mid) →
      StorageService.revertToVersion s mid vid svId eId now = (none, s)) ∧
    (∀ (s : Store) (mid vid svId eId : String) (now : Nat)
        (v : MemoryVersion) (cur : Memory),
      StorageService.getVersion s vid = some v → v.memory_id = mid →
      StorageService.getMemory s mid true = some cur →
      StorageService.RevertSuccessSpec s mid vid svId eId now v cur) := by
  constructor
  · intro s mid vid svId eId now h
    rcases h with hnone | ⟨v, hv, hne⟩
    · simp [StorageService.revertToVersion, hnone]
    · simp [StorageService.revertToVersion, hv, hne]
  · intro s mid vid svId eId now v cur hv hvm hcur
    have hid : cur.id = mid := StorageService.getMemory_id s mid cur hcur
    have h1 : (StorageService.revertToVersion s mid vid svId eId now).1 =
        some
          { id := mid, type := v.type, content := v.content, text := v.text,
            source := v.source, tags := v.tags, confidence := v.confidence,
            title := v.title, current_version := cur.current_version + 1,
            created_at := cur.created_at, updated_at := now,
            relationship_count := cur.relationship_count,
            embedding := none, embedding_metadata := none } := by
      simp [StorageService.revertToVersion, hv, hvm, hcur]
    have hm2 : (StorageService.revertToVersion s mid vid svId eId now).2.memories =
        (s.memories.filter fun r => r.id ≠ mid) ++
          [{ id := mid, type := v.type, content := v.content, text := v.text,
             source := v.source, tags := v.tags, confidence := v.confidence,
             title := v.title, current_version := cur.current_version + 1,
             created_at := cur.created_at, updated_at := now,
             relationship_count := cur.relationship_count,
             embedding := cur.embedding, embedding_metadata := cur.embedding_metadata }] := by
      simp [StorageService.revertToVersion, hv, hvm, hcur]
    have hv2 : (StorageService.revertToVersion s mid vid svId eId now).2.versions =
        s.versions ++ [StorageService.createVersionSnapshot cur
          (StorageService.getRelationshipIds s mid) svId now] := by
      simp [StorageService.revertToVersion, hv, hvm, hcur]
    have he2 : (StorageService.revertToVersion s mid vid svId eId now).2.events =
        s.events ++ [StorageService.mkEvent mid (cur.current_version + 1) .reverted
          (.revertedData v.version_number cur.current_version) eId now] := by
      simp [StorageService.revertToVersion, hv, hvm, hcur]
    unfold StorageService.RevertSuccessSpec
    refine ⟨_, h1, rfl, rfl, rfl, rfl, rfl, rfl, rfl, rfl, rfl, rfl, rfl,
      ?_, ?_, ?_, ?_⟩
    · rw [hm2, StorageService.find?_memId_replace s.memories mid _ rfl]
      rfl
    · rw [hm2, StorageService.find?_memId_replace s.memories mid _ rfl]
      rfl
    · rw [StorageService.versionsOf_append s _ mid _
        (by simpa [StorageService.createVersionSnapshot] using hid) hv2]
      exact List.mem_append_right _ (List.mem_singleton.mpr rfl)
    · exact StorageService.eventsOf_append s _ mid _
        (by intro e he; simp at he; subst he; rfl) he2

theorem C3_revert_semantics_witness :
    StorageService.revertToVersion store1 "m1" "nope" "v2" "e1" 9 = (none, store1) ∧
    StorageService.RevertSuccessSpec store1 "m1" "v1" "v2" "e1" 9 ver0 mem0 :=
  ⟨C3_revert_semantics.1 store1 "m1" "nope" "v2" "e1" 9 (Or.inl (by decide)),
   C3_revert_semantics.2 store1 "m1" "v1" "v2" "e1" 9 ver0 mem0
     (by decide) (by decide) (by decide)⟩

namespace StorageService

theorem updateEvents_memory_id (id : String) (current updated : Memory)
    (u : MemoryUpdateInput) (eventIds : Nat → String) (now : Nat) :
    ∀ e ∈ updateEvents id current updated u eventIds now, e.memory_id = id := by
  intro e he
  unfold updateEvents at he
  rcases List.mem_append.mp he with h | h
  · rcases List.mem_append.mp h with h2 | h2
    · cases hc : u.content <;> rw [hc] at h2 <;> simp at h2
      rw [h2]; rfl
    · cases ht : u.tags <;> rw [ht] at h2 <;> simp at h2
      rw [h2]; rfl
  · cases hl : u.title <;> rw [hl] at h <;> simp at h
    rw [h]; rfl

theorem updateEvents_no_type_event (id : String) (current updated : Memory)
    (u : MemoryUpdateInput) (eventIds : Nat → String) (now : Nat) :
    ∀ e ∈ updateEvents id current updated u eventIds now,
      e.event_type ≠ MemoryEventType.typeUpdated := by
  intro e he
  unfold updateEvents at he
  rcases List.mem_append.mp he with h | h
  · rcases List.mem_append.mp h with h2 | h2
    · cases hc : u.content <;> rw [hc] at h2 <;> simp at h2
      rw [h2]; simp [mkEvent]
    · cases ht : u.tags <;> rw [ht] at h2 <;> simp at h2
      rw [h2]; simp [mkEvent]
  · cases hl : u.title <;> rw [hl] at h <;> simp at h
    rw [h]; simp [mkEvent]

theorem updateEvents_length (id : String) (current updated : Memory)
    (u : MemoryUpdateInput) (eventIds : Nat → String) (now : Nat) :
    (updateEvents id current updated u eventIds now).length =
      (if u.content.isSome then 1 else 0) + (if u.tags.isSome then 1 else 0) +
        (if u.title.isSome then 1 else 0) := by
  unfold updateEvents
  cases hc : u.content <;> cases ht : u.tags <;> cases hl : u.title <;> simp

/-- The audit facts asserted by the amended C4 for a successful update:
exactly one snapshot of the pre-update state, an event count equal to the
number of supplied fields among content/tags/title, and never a
`TypeUpdated` event. -/
def UpdateAuditSpec (s : Store) (id : String) (u : MemoryUpdateInput)
    (emb embm : Option (List ℚ)) (versionId : String) (eventIds : Nat → String)
    (now : Nat) (pre : Memory) : Prop :=
  let out := updateMemory s id u emb embm versionId eventIds now
  versionsOf out.2 id = versionsOf s id ++
    [createVersionSnapshot pre (getRelationshipIds s id) versionId now] ∧
  (eventsOf out.2 id).length = (eventsOf s id).length +
    ((if u.content.isSome then 1 else 0) + (if u.tags.isSome then 1 else 0) +
      (if u.title.isSome then 1 else 0)) ∧
  (∀ e ∈ eventsOf out.2 id, e ∉ eventsOf s id →
    e.event_type ≠ MemoryEventType.typeUpdated)

end StorageService

/-- Counterexample to C4 as stated: an update that supplies only a new
`type` succeeds and changes the persisted state (the stored type
changes), yet appends zero events — contradicting "at least one event is
appended" (and there is no `TypeUpdated` event anywhere in the update
path). -/
theorem C4_counterexample_type_only_update :
    (StorageService.updateMemory store1 "m1" { type := some "idea" }
      none none "v2" evFresh 7).2.events = store1.events ∧
    ((StorageService.updateMemory store1 "m1" { type := some "idea" }
      none none "v2" evFresh 7).1.map fun m => m.type) = some "idea" ∧
    mem0.type ≠ "idea" := by
  decide

/-- C4 (amended): every successful update writes exactly one version
snapshot of the pre-mutation state, and appends exactly one event per
field *supplied* in the update input among content, tags and title
(regardless of whether the value actually changed); a type change logs
no event, so an update supplying only type/text/source/confidence
appends no events at all. -/
theorem C4_amended_update_audit (s : Store) (id : String)
    (u : MemoryUpdateInput) (emb embm : Option (List ℚ)) (versionId : String)
    (eventIds : Nat → String) (now : Nat) (pre : Memory)
    (hpre : StorageService.getMemory s id true = some pre) :
    StorageService.UpdateAuditSpec s id u emb embm versionId eventIds now pre := by
  have hid : pre.id = id := StorageService.getMemory_id s id pre hpre
  have hv2 : (StorageService.updateMemory s id u emb embm versionId eventIds now).2.versions =
      s.versions ++ [StorageService.createVersionSnapshot pre
        (StorageService.getRelationshipIds s id) versionId now] := by
    simp only [StorageService.updateMemory, hpre]
  have he2 : (StorageService.updateMemory s id u emb embm versionId eventIds now).2.events =
      s.events ++ StorageService.updateEvents id pre
        (StorageService.applyUpdates pre u now) u eventIds now := by
    simp only [StorageService.updateMemory, hpre]
  have hevts : StorageService.eventsOf
      (StorageService.updateMemory s id u emb embm versionId eventIds now).2 id =
      StorageService.eventsOf s id ++ StorageService.updateEvents id pre
        (StorageService.applyUpdates pre u now) u eventIds now :=
    StorageService.eventsOf_append s _ id _
      (StorageService.updateEvents_memory_id id pre _ u eventIds now) he2
  refine ⟨StorageService.versionsOf_append s _ id _
    (by simpa [StorageService.createVersionSnapshot] using hid) hv2, ?_, ?_⟩
  · rw [hevts, List.length_append, StorageService.updateEvents_length]
  · intro e he hnot
    rw [hevts] at he
    rcases List.mem_append.mp he with h | h
    · exact absurd h hnot
    · exact StorageService.updateEvents_no_type_event id pre _ u eventIds now e h

theorem C4_amended_update_audit_witness :
    StorageService.getMemory store1 "m1" true = some mem0 ∧
    StorageService.UpdateAuditSpec store1 "m1"
      { content := some [("k", "w")], tags := some ["b"] }
      none none "v2" evFresh 7 mem0 :=
  ⟨by decide,
   C4_amended_update_audit store1 "m1"
     { content := some [("k", "w")], tags := some ["b"] }
     none none "v2" evFresh 7 mem0 (by decide)⟩

/-- A list filtered by one predicate contains nothing satisfying an
incompatible predicate. -/
theorem filter_of_filter_incompat {α : Type} (l : List α) (p q : α → Bool)
    (h : ∀ a, q a = true → p a = false) : (l.filter q).filter p = [] := by
  rw [List.filter_eq_nil_iff]
  intro a ha
  have h2 := (List.mem_filter.mp ha).2
  simp [h a h2]

namespace StorageService

/-- The cascade facts asserted by C5 after a successful delete of `id`:
success is reported and no memory row, version, event or relationship
referencing `id` remains. -/
def DeleteCascadeSpec (id : String) (out : Bool × Store) : Prop :=
  out.1 = true ∧
  out.2.memories.find? (fun r => r.id = id) = none ∧
  versionsOf out.2 id = [] ∧
  eventsOf out.2 id = [] ∧
  out.2.relationships.filter
    (fun r => r.from_memory_id = id ∨ r.to_memory_id = id) = []

end StorageService

/-- C5: deleting an existing Memory (by either `deleteMemory` or the
MCP-facing `delete`) reports success and removes the memory row, all its
versions, all its events and every relationship touching it (for
`delete`, under the invariant that no relationship row carries a
soft-delete marker — the source never writes one); deleting a missing
Memory reports failure and changes nothing. -/
theorem C5_delete_cascades :
    (∀ (s : Store) (id : String),
      StorageService.getMemory s id = none →
      StorageService.deleteMemory s id = (false, s) ∧
      StorageService.deleteM s id = (false, s)) ∧
    (∀ (s : Store) (id : String) (m : Memory),
      StorageService.getMemory s id = some m →
      StorageService.DeleteCascadeSpec id (StorageService.deleteMemory s id)) ∧
    (∀ (s : Store) (id : String) (m : Memory),
      StorageService.getMemory s id = some m →
      (∀ r ∈ s.relationships,
        (r.from_memory_id = id ∨ r.to_memory_id = id) →
        r.deleted_in_version = none) →
      StorageService.DeleteCascadeSpec id (StorageService.deleteM s id)) := by
  refine ⟨?_, ?_, ?_⟩
  · intro s id h
    constructor
    · simp [StorageService.deleteMemory, h]
    · simp [StorageService.deleteM, h]
  · intro s id m h
    refine ⟨?_, ?_, ?_, ?_, ?_⟩
    · simp [StorageService.deleteMemory, h]
    · simp only [StorageService.deleteMemory, h]
      exact StorageService.find?_memId_filter_none s.memories id
    · simp only [StorageService.deleteMemory, h, StorageService.versionsOf]
      apply filter_of_filter_incompat
      intro v hv
      simp at hv ⊢
      exact hv
    · simp only [StorageService.deleteMemory, h, StorageService.eventsOf]
      apply filter_of_filter_incompat
      intro e he
      simp at he ⊢
      exact he
    · simp only [StorageService.deleteMemory, h]
      apply filter_of_filter_incompat
      intro r hr
      simp at hr ⊢
      exact hr
  · intro s id m h hsoft
    refine ⟨?_, ?_, ?_, ?_, ?_⟩
    · simp [StorageService.deleteM, h]
    · simp only [StorageService.deleteM, h]
      exact StorageService.find?_memId_filter_none s.memories id
    · simp only [StorageService.deleteM, h, StorageService.versionsOf]
      apply filter_of_filter_incompat
      intro v hv
      simp at hv ⊢
      exact hv
    · simp only [StorageService.deleteM, h, StorageService.eventsOf]
      apply filter_of_filter_incompat
      intro e he
      simp at he ⊢
      exact he
    · simp only [StorageService.deleteM, h]
      rw [List.filter_eq_nil_iff]
      intro r hr
      have hmem := (List.mem_filter.mp hr).1
      have hkeep := (List.mem_filter.mp hr).2
      intro htouch
      have htouch' : r.from_memory_id = id ∨ r.to_memory_id = id := by
        simpa using htouch
      have hnone := hsoft r hmem htouch'
      simp at hkeep
      exact hkeep r hmem htouch' hnone rfl

/-- A second concrete memory, the target of `rel0`. -/
def mem1 : Memory :=
  { id := "m2", type := "note", content := [], text := "x", source := "user",
    tags := [], confidence := 1, title := none, current_version := 1,
    created_at := 0, updated_at := 0, relationship_count := 1,
    embedding := some [0, 1], embedding_metadata := some [1, 0] }

/-- A concrete relationship from `mem0` to `mem1`. -/
def rel0 : MemoryRelationship :=
  { id := "r1", from_memory_id := "m1", to_memory_id := "m2", type := "related",
    score := none, created_at := 0, created_in_version := none,
    deleted_in_version := none }

/-- A concrete `Created` event for `mem0`. -/
def ev0 : MemoryEvent :=
  StorageService.mkEvent "m1" 1 .created (.createdData "note" ["a"]) "e0" 0

/-- A two-memory store with a relationship and an event, for the delete
witnesses. -/
def store2 : Store :=
  { memories := [mem0, mem1], versions := [ver0], events := [ev0],
    relationships := [rel0] }

theorem C5_delete_cascades_witness :
    (StorageService.deleteMemory store1 "zz" = (false, store1) ∧
      StorageService.deleteM store1 "zz" = (false, store1)) ∧
    StorageService.DeleteCascadeSpec "m1" (StorageService.deleteMemory store2 "m1") ∧
    StorageService.DeleteCascadeSpec "m1" (StorageService.deleteM store2 "m1") :=
  ⟨C5_delete_cascades.1 store1 "zz" (by decide),
   C5_delete_cascades.2.1 store2 "m1"
     { mem0 with embedding := none, embedding_metadata := none } (by decide),
   C5_delete_cascades.2.2 store2 "m1"
     { mem0 with embedding := none, embedding_metadata := none } (by decide)
     (by decide)⟩

namespace StorageService

/-- Every result of `search` stems from a candidate: its score is
`1 - distance` for that candidate, it cleared the threshold, and it is
the mapped row of that candidate. -/
theorem search_mem_characterize (o : SearchOptions)
    (candidates : List (Memory × Option ℚ)) (r : SearchResult)
    (hr : r ∈ search o candidates) :
    ∃ c ∈ candidates, searchEffThreshold o ≤ 1 - c.2.getD 0 ∧
      r = searchResultRow o c.1 (1 - c.2.getD 0) := by
  have hr' : r ∈ candidates.filterMap fun c =>
      if searchEffThreshold o ≤ 1 - c.2.getD 0 then
        some (searchResultRow o c.1 (1 - c.2.getD 0))
      else none := by
    rcases ht : o.tags with _ | tagList
    · simp only [search, ht] at hr
      exact List.take_subset _ _ hr
    · simp only [search, ht] at hr
      by_cases hne : tagList ≠ []
      · rw [if_pos hne] at hr
        exact (List.mem_filter.mp hr).1
      · rw [if_neg hne] at hr
        exact List.take_subset _ _ hr
  obtain ⟨c, hc, hfc⟩ := List.mem_filterMap.mp hr'
  by_cases hth : searchEffThreshold o ≤ 1 - c.2.getD 0
  · rw [if_pos hth] at hfc
    exact ⟨c, hc, hth, (Option.some_injective _ hfc).symm⟩
  · rw [if_neg hth] at hfc
    cases hfc

/-- The facts asserted by the amended C7 about the post-processing of a
substrate response. -/
def SearchSpec (o : SearchOptions) (candidates : List (Memory × Option ℚ)) : Prop :=
  let res := search o candidates
  searchRequestLimit o = 2 * searchEffLimit o ∧
  (∀ r ∈ res, searchEffThreshold o ≤ r.score) ∧
  (∀ r ∈ res, ∃ c ∈ candidates, r.score = 1 - c.2.getD 0 ∧ r.memory.id = c.1.id) ∧
  (∀ tagList, o.tags = some tagList → tagList ≠ [] →
    (∀ r ∈ res, tagList.any (fun t => r.memory.tags.contains t) = true) ∧
    res.length ≤ candidates.length) ∧
  ((o.tags = none ∨ o.tags = some []) → res.length ≤ searchEffLimit o)

end StorageService

/-- Counterexample to C7 as stated: with a non-empty tag filter, `search`
returns the tag-filtered threshold survivors *without* the final
truncation to `limit` — here `limit = 1` (request size 2), both
candidates survive threshold and tag filtering, and two results are
returned. -/
theorem C7_counterexample_tag_filter_exceeds_limit :
    StorageService.searchEffLimit
      ⟨some 1, some (1/2), none, some ["a"], true⟩ = 1 ∧
    (StorageService.search ⟨some 1, some (1/2), none, some ["a"], true⟩
      [(mem0, some 0), (mem0, some 0)]).length = 2 ∧
    [(mem0, some 0), (mem0, some 0)].length ≤
      StorageService.searchRequestLimit ⟨some 1, some (1/2), none, some ["a"], true⟩ := by
  refine ⟨by decide, ?_, by decide⟩
  norm_num [StorageService.search, StorageService.searchEffThreshold,
    StorageService.searchEffLimit, StorageService.searchResultRow, mem0,
    List.filterMap_cons, List.filterMap_nil, Option.getD_some, List.filter]

/-- C7 (amended): `search` requests `limit × 2` candidates, scores each
candidate as `1 − distance`, excludes scores below the effective
threshold, applies tag filtering in memory, and truncates to `limit`
only when no tag filter is given — with a non-empty tag filter the
tag-filtered survivors are returned untruncated (bounded only by the
response size, i.e. up to `limit × 2`). -/
theorem C7_amended_search_post (o : StorageService.SearchOptions)
    (candidates : List (Memory × Option ℚ)) :
    StorageService.SearchSpec o candidates := by
  refine ⟨rfl, ?_, ?_, ?_, ?_⟩
  · intro r hr
    obtain ⟨c, hc, hth, heq⟩ :=
      StorageService.search_mem_characterize o candidates r hr
    rw [heq]
    exact hth
  · intro r hr
    obtain ⟨c, hc, hth, heq⟩ :=
      StorageService.search_mem_characterize o candidates r hr
    refine ⟨c, hc, ?_, ?_⟩
    · rw [heq]
      rfl
    · rw [heq]
      rfl
  · intro tagList htags hne
    constructor
    · intro r hr
      simp only [StorageService.search, htags] at hr
      rw [if_pos hne] at hr
      exact (List.mem_filter.mp hr).2
    · simp only [StorageService.search, htags]
      rw [if_pos hne]
      exact Nat.le_trans (List.length_filter_le _ _) (List.length_filterMap_le _ _)
  · intro htags
    rcases htags with h | h
    · simp only [StorageService.search, h]
      rw [List.length_take]
      exact Nat.min_le_left ..
    · simp only [StorageService.search, h, ne_eq, not_true_eq_false, ite_false]
      rw [List.length_take]
      exact Nat.min_le_left ..

/-- C8 evaluated at the spec's own example (threshold 0.9, one candidate
at similarity 0.82): because the tool layer passes its arguments
positionally to `searchWithMetadataEmbedding(queryEmbedding, options?)`,
the numeric `limit` is bound to `options` and the threshold argument is
dropped, so both the first attempt and any retry run at the default
threshold 0.5; the candidate (whose similarity 0.82 is below the
requested 0.9) is already returned by the first attempt and the result
reports `usedFallback = false` with the original threshold — not the
claimed retry at `max(0, 0.9 − 0.1) = 0.8` with `usedFallback = true`. -/
theorem C8_signature_mismatch_evaluation :
    StorageService.swmeEffThreshold
      (some (StorageService.numberAsSwmeOptions (9/10))) = 1/2 ∧
    StorageService.swmeEffThreshold
      (some (StorageService.numberAsSwmeOptions (max 0 (9/10 - 1/10)))) = 1/2 ∧
    (MemoryTools.searchMemoriesTool [(mem0, some (9/50))] 10 (9/10)).usedFallback = false ∧
    (MemoryTools.searchMemoriesTool [(mem0, some (9/50))] 10 (9/10)).actualThreshold = 9/10 ∧
    ((MemoryTools.searchMemoriesTool [(mem0, some (9/50))] 10 (9/10)).memories.map
      fun r => r.memory.id) = ["m1"] ∧
    (1 - (9/50 : ℚ)) < 9/10 := by
  refine ⟨rfl, rfl, ?_⟩
  norm_num [MemoryTools.searchMemoriesTool, StorageService.searchWithMetadataEmbedding,
    StorageService.swmeEffThreshold, StorageService.swmeEffLimit,
    StorageService.numberAsSwmeOptions, StorageService.swmeLoop, mem0]

theorem find?_append_some {α : Type} (p : α → Bool) (l1 l2 : List α) (x : α)
    (h : l1.find? p = some x) : (l1 ++ l2).find? p = some x := by
  rw [List.find?_append, h]
  rfl

namespace StorageService

/-- The success-path facts asserted by C9 for relationship creation
through the route: one edge appended, both endpoint counts bumped by
one, one `RelationshipAdded` event logged on the source. -/
def RelationshipCreateSuccessSpec (s : Store) (fromId toId rtype : String)
    (score : Option ℚ) (relId eventId : String) (now : Nat)
    (rowF rowT : Memory) : Prop :=
  let out := Routes.postRelationship s fromId toId rtype score relId eventId now
  (∃ rel, out.1 = .ok rel ∧
    rel.from_memory_id = fromId ∧ rel.to_memory_id = toId ∧ rel.type = rtype ∧
    out.2.relationships = s.relationships ++ [rel]) ∧
  out.2.memories.find? (fun r => r.id = fromId) =
    some { rowF with relationship_count := rowF.relationship_count + 1 } ∧
  out.2.memories.find? (fun r => r.id = toId) =
    some { rowT with relationship_count := rowT.relationship_count + 1 } ∧
  out.2.events = s.events ++ [mkEvent fromId 0 .relationshipAdded
    (.relationshipAddedData relId toId rtype) eventId now]

end StorageService

/-- C9: relationship creation through `POST /api/relationships` verifies
that both endpoint Memories exist and reports NotFound without writing
anything otherwise; on success it writes exactly one directed edge,
increments both endpoints' relationship counts by one, and logs one
`RelationshipAdded` event on the source. -/
theorem C9_relationship_creation :
    (∀ (s : Store) (fromId toId rtype : String) (score : Option ℚ)
        (relId eventId : String) (now : Nat),
      fromId ≠ "" → toId ≠ "" → rtype ≠ "" →
      (StorageService.getMemory s fromId = none ∨
        StorageService.getMemory s toId = none) →
      Routes.postRelationship s fromId toId rtype score relId eventId now =
        (.notFound, s)) ∧
    (∀ (s : Store) (fromId toId rtype : String) (score : Option ℚ)
        (relId eventId : String) (now : Nat) (rowF rowT : Memory),
      fromId ≠ "" → toId ≠ "" → rtype ≠ "" → fromId ≠ toId →
      s.memories.find? (fun r => r.id = fromId) = some rowF →
      s.memories.find? (fun r => r.id = toId) = some rowT →
      StorageService.RelationshipCreateSuccessSpec s fromId toId rtype score
        relId eventId now rowF rowT) := by
  constructor
  · intro s fromId toId rtype score relId eventId now h1 h2 h3 hmiss
    rcases hmiss with hm | hm
    · simp only [Routes.postRelationship, h1, h2, h3, hm]
      simp
    · simp only [Routes.postRelationship, h1, h2, h3, hm]
      cases hf : StorageService.getMemory s fromId <;> simp
  · intro s fromId toId rtype score relId eventId now rowF rowT h1 h2 h3 hft hf ht
    have hrowFid : rowF.id = fromId := by simpa using List.find?_some hf
    have hrowTid : rowT.id = toId := by simpa using List.find?_some ht
    have htf : toId ≠ fromId := fun h => hft h.symm
    have hgf : StorageService.getMemory s fromId = some
        { rowF with embedding := none, embedding_metadata := none } := by
      unfold StorageService.getMemory
      rw [hf]
      rfl
    have hgt : StorageService.getMemory s toId = some
        { rowT with embedding := none, embedding_metadata := none } := by
      unfold StorageService.getMemory
      rw [ht]
      rfl
    have hfind2 : ((s.memories.filter fun (r : Memory) => r.id ≠ fromId) ++
        [{ rowF with relationship_count := rowF.relationship_count + 1 }]).find?
          (fun r => r.id = toId) = some rowT := by
      apply find?_append_some
      rw [StorageService.find?_memId_filter_ne s.memories toId fromId htf]
      exact ht
    have hfindF : (((s.memories.filter fun (r : Memory) => r.id ≠ fromId) ++
        [{ rowF with relationship_count := rowF.relationship_count + 1 }]).filter
          (fun r => r.id ≠ toId) ++
        [{ rowT with relationship_count := rowT.relationship_count + 1 }]).find?
          (fun r => r.id = fromId) =
        some { rowF with relationship_count := rowF.relationship_count + 1 } := by
      apply find?_append_some
      rw [StorageService.find?_memId_filter_ne _ fromId toId hft]
      exact StorageService.find?_memId_replace s.memories fromId _
        (by simpa using hrowFid)
    have hfindT : (((s.memories.filter fun (r : Memory) => r.id ≠ fromId) ++
        [{ rowF with relationship_count := rowF.relationship_count + 1 }]).filter
          (fun r => r.id ≠ toId) ++
        [{ rowT with relationship_count := rowT.relationship_count + 1 }]).find?
          (fun r => r.id = toId) =
        some { rowT with relationship_count := rowT.relationship_count + 1 } :=
      StorageService.find?_memId_replace _ toId _ (by simpa using hrowTid)
    have hinc1 : StorageService.incrementRelationshipCount
        { s with relationships := s.relationships ++
          [{ id := relId
             from_memory_id := fromId
             to_memory_id := toId
             type := rtype
             score := StorageService.normalizeScore score
             created_at := now
             created_in_version := none
             deleted_in_version := none }] } fromId =
        { s with
            memories := (s.memories.filter fun (r : Memory) => r.id ≠ fromId) ++
              [{ rowF with relationship_count := rowF.relationship_count + 1 }]
            relationships := s.relationships ++
              [{ id := relId
                 from_memory_id := fromId
                 to_memory_id := toId
                 type := rtype
                 score := StorageService.normalizeScore score
                 created_at := now
                 created_in_version := none
                 deleted_in_version := none }] } := by
      unfold StorageService.incrementRelationshipCount StorageService.getMemory
      rw [show ({ s with relationships := s.relationships ++ [_] } : Store).memories
          = s.memories from rfl, hf]
      rfl
    have hinc2 : StorageService.incrementRelationshipCount
        { s with
            memories := (s.memories.filter fun (r : Memory) => r.id ≠ fromId) ++
              [{ rowF with relationship_count := rowF.relationship_count + 1 }]
            relationships := s.relationships ++
              [{ id := relId
                 from_memory_id := fromId
                 to_memory_id := toId
                 type := rtype
                 score := StorageService.normalizeScore score
                 created_at := now
                 created_in_version := none
                 deleted_in_version := none }] } toId =
        { s with
            memories := (((s.memories.filter fun (r : Memory) => r.id ≠ fromId) ++
              [{ rowF with relationship_count := rowF.relationship_count + 1 }]).filter
                (fun r => r.id ≠ toId)) ++
              [{ rowT with relationship_count := rowT.relationship_count + 1 }]
            relationships := s.relationships ++
              [{ id := relId
                 from_memory_id := fromId
                 to_memory_id := toId
                 type := rtype
                 score := StorageService.normalizeScore score
                 created_at := now
                 created_in_version := none
                 deleted_in_version := none }] } := by
      unfold StorageService.incrementRelationshipCount StorageService.getMemory
      rw [show ({ s with
          memories := (s.memories.filter fun (r : Memory) => r.id ≠ fromId) ++
            [{ rowF with relationship_count := rowF.relationship_count + 1 }]
          relationships := s.relationships ++ [_] } : Store).memories
          = (s.memories.filter fun (r : Memory) => r.id ≠ fromId) ++
            [{ rowF with relationship_count := rowF.relationship_count + 1 }] from rfl,
        hfind2]
      rfl
    have hpost : Routes.postRelationship s fromId toId rtype score relId eventId now =
        (.ok { id := relId
               from_memory_id := fromId
               to_memory_id := toId
               type := rtype
               score := StorageService.normalizeScore score
               created_at := now
               created_in_version := none
               deleted_in_version := none },
         { memories := (((s.memories.filter fun (r : Memory) => r.id ≠ fromId) ++
              [{ rowF with relationship_count := rowF.relationship_count + 1 }]).filter
                (fun r => r.id ≠ toId)) ++
              [{ rowT with relationship_count := rowT.relationship_count + 1 }]
           versions := s.versions
           events := s.events ++ [StorageService.mkEvent fromId 0 .relationshipAdded
             (.relationshipAddedData relId toId rtype) eventId now]
           relationships := s.relationships ++
             [{ id := relId
                from_memory_id := fromId
                to_memory_id := toId
                type := rtype
                score := StorageService.normalizeScore score
                created_at := now
                created_in_version := none
                deleted_in_version := none }] }) := by
      have hcreate : StorageService.createRelationship s
          ⟨fromId, toId, rtype, score⟩ relId eventId now =
          ({ id := relId
             from_memory_id := fromId
             to_memory_id := toId
             type := rtype
             score := StorageService.normalizeScore score
             created_at := now
             created_in_version := none
             deleted_in_version := none },
           { memories := (((s.memories.filter fun (r : Memory) => r.id ≠ fromId) ++
                [{ rowF with relationship_count := rowF.relationship_count + 1 }]).filter
                  (fun r => r.id ≠ toId)) ++
                [{ rowT with relationship_count := rowT.relationship_count + 1 }]
             versions := s.versions
             events := s.events ++ [StorageService.mkEvent fromId 0 .relationshipAdded
               (.relationshipAddedData relId toId rtype) eventId now]
             relationships := s.relationships ++
               [{ id := relId
                  from_memory_id := fromId
                  to_memory_id := toId
                  type := rtype
                  score := StorageService.normalizeScore score
                  created_at := now
                  created_in_version := none
                  deleted_in_version := none }] }) := by
        simp only [StorageService.createRelationship]
        rw [hinc1, hinc2]
      unfold Routes.postRelationship
      rw [if_neg (by simp [h1, h2, h3]), hgf, hgt, hcreate]
    unfold StorageService.RelationshipCreateSuccessSpec
    refine ⟨⟨{ id := relId
               from_memory_id := fromId
               to_memory_id := toId
               type := rtype
               score := StorageService.normalizeScore score
               created_at := now
               created_in_version := none
               deleted_in_version := none }, ?_, rfl, rfl, rfl, ?_⟩, ?_, ?_, ?_⟩
    · rw [hpost]
    · rw [hpost]
    · rw [hpost]
      exact hfindF
    · rw [hpost]
      exact hfindT
    · rw [hpost]

theorem C9_relationship_creation_witness :
    Routes.postRelationship store1 "m1" "zz" "related" none "r9" "e9" 4 =
      (.notFound, store1) ∧
    StorageService.RelationshipCreateSuccessSpec store2 "m1" "m2" "related"
      none "r9" "e9" 4 mem0 mem1 :=
  ⟨C9_relationship_creation.1 store1 "m1" "zz" "related" none "r9" "e9" 4
      (by decide) (by decide) (by decide) (Or.inr (by decide)),
   C9_relationship_creation.2 store2 "m1" "m2" "related" none "r9" "e9" 4
      mem0 mem1 (by decide) (by decide) (by decide) (by decide)
      (by decide) (by decide)⟩

/-- C10: `listMemories` fetches at most `limit` records from the
substrate, then applies the offset by slicing the already-limited,
tag-filtered list: the offset skips records within the fetched window
(dropping from the window, not from the full collection), so at most
`max(0, limit − offset)` memories are returned. -/
theorem C10_list_offset_within_window (lim offset : Nat)
    (tags : Option (List String)) (fetched : List Memory)
    (hfetch : fetched.length ≤ lim) :
    StorageService.listMemories offset tags fetched =
      (StorageService.listMemories 0 tags fetched).drop offset ∧
    (StorageService.listMemories offset tags fetched).length ≤ lim - offset := by
  constructor
  · simp only [StorageService.listMemories, List.drop_zero]
  · rcases tags with _ | tagList
    · simp only [StorageService.listMemories, List.length_drop, List.length_map]
      exact Nat.sub_le_sub_right hfetch offset
    · by_cases hne : tagList ≠ []
      · simp only [StorageService.listMemories, if_pos hne, List.length_drop]
        refine Nat.le_trans (Nat.sub_le_sub_right ?_ offset)
          (Nat.sub_le_sub_right hfetch offset)
        exact Nat.le_trans (List.length_filter_le _ _) (by simp)
      · simp only [StorageService.listMemories, if_neg hne, List.length_drop,
          List.length_map]
        exact Nat.sub_le_sub_right hfetch offset

theorem C10_list_offset_within_window_witness :
    ([mem0, mem1] : List Memory).length ≤ 2 ∧
    (StorageService.listMemories 1 (some ["a"]) [mem0, mem1] =
      (StorageService.listMemories 0 (some ["a"]) [mem0, mem1]).drop 1 ∧
    (StorageService.listMemories 1 (some ["a"]) [mem0, mem1]).length ≤ 2 - 1) :=
  ⟨by decide,
   C10_list_offset_within_window 2 1 (some ["a"]) [mem0, mem1] (by decide)⟩
